import Mathlib

/-!
Shallow embedding of the replacement-assignment engine of
`src/Streamlit_Upload/app.py` (Teacher Replacement System).

A pandas DataFrame of timetable rows is modelled as a `List Lesson`;
pandas boolean-mask filtering becomes `List.filter`; `sort_values` /
Python's stable `list.sort` become `List.insertionSort` (stable);
Python's `sorted` over strings is insertion sort by the code-point
lexicographic order `strLE`; `defaultdict(int)` / `defaultdict(set)`
become total functions with defaults `0` / `[]`; Python's
`max(candidates, key=lambda x: x["score"])` (which keeps the first
maximum) becomes a left fold replacing the current best only on a
strictly greater score.  The `"—"` sentinel of the no-substitute
record is modelled by `Option.none`.
-/

/-- One normalized timetable row: `{teacher, day, period, class, subject}`.
`class` is a Lean keyword, so the field is named `className`. -/
structure Lesson where
  teacher : String
  day : String
  period : Nat
  className : String
  subject : String
deriving DecidableEq, Repr

/-- A required slot of an absent teacher (`get_required_slots` element). -/
structure Slot where
  absent_teacher : String
  period : Nat
  className : String
  subject : String
deriving DecidableEq, Repr

/-- A scored prospective substitute for one slot (the dicts appended to
`candidates` in `generate_multi_replacement_plan`). -/
structure Candidate where
  teacher : String
  score : Int
  is_same_subject : Bool
  daily_load : Nat
  subs_today : Nat
  reason : String
deriving DecidableEq, Repr

/-- One output row of the replacement plan.  `substitute = none` models the
`"—"` sentinel; the three numeric fields are `Option`s because the
no-substitute row stores `None` in them. -/
structure PlanRecord where
  absent_teacher : String
  day : String
  period : Nat
  className : String
  subject : String
  substitute : Option String
  is_same_subject : Bool
  daily_load : Option Nat
  subs_today : Option Nat
  score : Option Int
  reason : String
deriving DecidableEq, Repr

/-- `MAX_SUBSTITUTIONS_PER_DAY = 2` (app.py line 31). -/
def MAX_SUBSTITUTIONS_PER_DAY : Nat := 2

/-- Code-point lexicographic comparison of character lists (how Python
compares strings). -/
def leChars : List Char → List Char → Bool
  | [], _ => true
  | _ :: _, [] => false
  | a :: as, b :: bs =>
      if a.val < b.val then true
      else if b.val < a.val then false
      else leChars as bs

/-- Boolean string comparison by code points. -/
def str_le (a b : String) : Bool := leChars a.data b.data

/-- Propositional form of `str_le`, used as the sort relation. -/
def strLE (a b : String) : Prop := str_le a b = true

instance : DecidableRel strLE := fun a b => inferInstanceAs (Decidable (str_le a b = true))

/-- `ALL_TEACHERS = sorted(df["teacher"].dropna().unique())` (app.py line 66):
first-occurrence deduplication, then Python `sorted`. -/
def ALL_TEACHERS (df : List Lesson) : List String :=
  List.insertionSort strLE (df.map Lesson.teacher).dedup

/-- `get_teacher_schedule` (app.py lines 74-79): the rows of a teacher on a
day, sorted by period.  `sort_values("period")` is modelled as a
deterministic stable insertion sort; the two can differ only on timetables
holding several rows for one `(teacher, day, period)`, which the system
treats as malformed. -/
def periodLE (a b : Lesson) : Prop := a.period ≤ b.period

instance : DecidableRel periodLE := fun a b => inferInstanceAs (Decidable (a.period ≤ b.period))

instance : IsTotal Lesson periodLE := ⟨fun a b => Nat.le_total a.period b.period⟩

instance : IsTrans Lesson periodLE := ⟨fun _ _ _ h1 h2 => Nat.le_trans h1 h2⟩

def get_teacher_schedule (df : List Lesson) (teacher day : String) : List Lesson :=
  List.insertionSort periodLE
    (df.filter (fun r => r.teacher == teacher && r.day == day))

/-- `get_teacher_load` (app.py lines 82-83): number of rows of a teacher on a
day. -/
def get_teacher_load (df : List Lesson) (teacher day : String) : Nat :=
  (df.filter (fun r => r.teacher == teacher && r.day == day)).length

/-- `get_required_slots` (app.py lines 90-104): one slot per lesson of each
absent teacher on the day, teachers in the supplied order, each teacher's
lessons by period. -/
def get_required_slots (df : List Lesson) (absent_teachers : List String)
    (day : String) : List Slot :=
  absent_teachers.flatMap (fun teacher =>
    (get_teacher_schedule df teacher day).map (fun row =>
      { absent_teacher := teacher
        period := row.period
        className := row.className
        subject := row.subject }))

/-- The per-run mutable accumulator of `generate_multi_replacement_plan`:
`substitute_load = defaultdict(int)` keyed by `(teacher, day)` and
`busy_substitutes = defaultdict(set)` keyed by `(day, period)` (app.py
lines 112-113). -/
structure EngineState where
  substitute_load : String × String → Nat
  busy_substitutes : String × Nat → List String

/-- The empty accumulator the run starts from. -/
def initState : EngineState where
  substitute_load := fun _ => 0
  busy_substitutes := fun _ => []

/-- `df[(teacher) & (day) & (period)].empty` (app.py lines 129-133): the
teacher has no own lesson at `(day, period)`. -/
def is_free (df : List Lesson) (teacher day : String) (period : Nat) : Bool :=
  (df.filter (fun r => r.teacher == teacher && r.day == day && r.period == period)).isEmpty

/-- The four eligibility filters of the candidate loop, in source order
(app.py lines 125-142): not absent, free this period, not already a
substitute this period, below the daily cap. -/
def candidate_filter (df : List Lesson) (absent_teachers : List String)
    (day : String) (state : EngineState) (period : Nat) (teacher : String) : Bool :=
  !(absent_teachers.contains teacher) &&
  is_free df teacher day period &&
  !((state.busy_substitutes (day, period)).contains teacher) &&
  decide (state.substitute_load (teacher, day) < MAX_SUBSTITUTIONS_PER_DAY)

/-- `not df[(teacher) & (subject)].empty` (app.py lines 145-148): the teacher
teaches this subject anywhere in the timetable. -/
def teaches_subject (df : List Lesson) (teacher subject : String) : Bool :=
  !(df.filter (fun r => r.teacher == teacher && r.subject == subject)).isEmpty

/-- The candidate dict built for one surviving teacher (app.py lines
144-163). -/
def make_candidate (df : List Lesson) (day subject : String)
    (state : EngineState) (teacher : String) : Candidate :=
  let ts := teaches_subject df teacher subject
  let dl := get_teacher_load df teacher day
  { teacher := teacher
    score := (if ts then 100 else 0) + ((10 : Int) - (dl : Int))
    is_same_subject := ts
    daily_load := dl
    subs_today := state.substitute_load (teacher, day)
    reason := (if ts then "Same subject, " else "Different subject, ")
      ++ "daily load " ++ toString dl }

/-- The full candidate list for a slot: scan `allTeachers` in order, keep the
survivors of `candidate_filter`, score each (app.py lines 121-163). -/
def candidates_for (df : List Lesson) (absent_teachers : List String)
    (day : String) (allTeachers : List String) (state : EngineState)
    (period : Nat) (subject : String) : List Candidate :=
  (allTeachers.filter (candidate_filter df absent_teachers day state period)).map
    (make_candidate df day subject state)

/-- One comparison step of Python's `max(..., key=lambda x: x["score"])`: the
running best is replaced only on a strictly greater score, so ties keep the
earlier element. -/
def py_best (b x : Candidate) : Candidate := if x.score > b.score then x else b

/-- Python's `max(candidates, key=lambda x: x["score"])` (app.py line 166):
`none` on the empty list, else the first candidate of maximal score. -/
def py_max_by_score : List Candidate → Option Candidate
  | [] => none
  | c :: l => some (l.foldl py_best c)

/-- The plan row appended on a successful assignment (app.py lines 172-184). -/
def successRecord (slot : Slot) (day : String) (best : Candidate) : PlanRecord where
  absent_teacher := slot.absent_teacher
  day := day
  period := slot.period
  className := slot.className
  subject := slot.subject
  substitute := some best.teacher
  is_same_subject := best.is_same_subject
  daily_load := some best.daily_load
  subs_today := some best.subs_today
  score := some best.score
  reason := best.reason

/-- The plan row appended when no candidate exists (app.py lines 186-198). -/
def noSubRecord (slot : Slot) (day : String) : PlanRecord where
  absent_teacher := slot.absent_teacher
  day := day
  period := slot.period
  className := slot.className
  subject := slot.subject
  substitute := none
  is_same_subject := false
  daily_load := none
  subs_today := none
  score := none
  reason := "No suitable substitute available"

/-- The two state mutations of a successful assignment (app.py lines 169-170):
`substitute_load[(selected, day)] += 1` and
`busy_substitutes[(day, period)].add(selected)`. -/
def apply_assignment (state : EngineState) (day : String) (period : Nat)
    (teacher : String) : EngineState where
  substitute_load := fun p =>
    if p = (teacher, day) then state.substitute_load p + 1
    else state.substitute_load p
  busy_substitutes := fun p =>
    if p = (day, period) then teacher :: state.busy_substitutes p
    else state.busy_substitutes p

/-- One iteration of the slot loop of `generate_multi_replacement_plan`
(app.py lines 117-198): build the candidates, pick the best (or none), and
update `substitute_load` and `busy_substitutes` only on success. -/
def step (df : List Lesson) (absent_teachers : List String) (day : String)
    (allTeachers : List String) (acc : EngineState × List PlanRecord)
    (slot : Slot) : EngineState × List PlanRecord :=
  let state := acc.1
  let plans := acc.2
  let candidates :=
    candidates_for df absent_teachers day allTeachers state slot.period slot.subject
  match py_max_by_score candidates with
  | none => (state, plans ++ [noSubRecord slot day])
  | some best =>
      (apply_assignment state day slot.period best.teacher,
       plans ++ [successRecord slot day best])

/-- `required_slots.sort(key=lambda x: x["period"])` (app.py line 110):
Python's stable sort by period. -/
def slotPeriodLE (a b : Slot) : Prop := a.period ≤ b.period

instance : DecidableRel slotPeriodLE := fun a b => inferInstanceAs (Decidable (a.period ≤ b.period))

instance : IsTotal Slot slotPeriodLE := ⟨fun a b => Nat.le_total a.period b.period⟩

instance : IsTrans Slot slotPeriodLE := ⟨fun _ _ _ h1 h2 => Nat.le_trans h1 h2⟩

def required_slots_sorted (df : List Lesson) (absent_teachers : List String)
    (day : String) : List Slot :=
  List.insertionSort slotPeriodLE (get_required_slots df absent_teachers day)

/-- The slot loop over a given teacher universe, started from the empty
accumulator. -/
def generate_plan_core (df : List Lesson) (absent_teachers : List String)
    (day : String) (allTeachers : List String) : EngineState × List PlanRecord :=
  (required_slots_sorted df absent_teachers day).foldl
    (step df absent_teachers day allTeachers) (initState, [])

/-- `generate_multi_replacement_plan` (app.py lines 107-200): the ordered
replacement plan, scanning the module-level `ALL_TEACHERS` universe. -/
def generate_multi_replacement_plan (df : List Lesson)
    (absent_teachers : List String) (day : String) : List PlanRecord :=
  (generate_plan_core df absent_teachers day (ALL_TEACHERS df)).2

/-!  ## Helper lemmas -/

/-- Number of plan rows naming `t` as substitute. -/
def subCount (plans : List PlanRecord) (t : String) : Nat :=
  (plans.filter (fun p => p.substitute == some t)).length

/-- Number of plan rows naming `t` as substitute at period `per`. -/
def subCountAt (plans : List PlanRecord) (per : Nat) (t : String) : Nat :=
  (plans.filter (fun p => p.period == per && p.substitute == some t)).length

theorem py_fold_spec (l : List Candidate) (c : Candidate) :
    l.foldl py_best c ∈ c :: l ∧
    (∀ x ∈ c :: l, x.score ≤ (l.foldl py_best c).score) ∧
    (c :: l).find? (fun x => decide ((l.foldl py_best c).score ≤ x.score))
      = some (l.foldl py_best c) := by
  induction l generalizing c with
  | nil =>
    refine ⟨List.mem_singleton.mpr rfl, ?_, ?_⟩
    · intro x hx
      rw [List.mem_singleton] at hx
      exact hx ▸ le_refl _
    · exact List.find?_cons_of_pos _ (by simp)
  | cons a t ih =>
    have hfold : (a :: t).foldl py_best c = t.foldl py_best (py_best c a) := rfl
    by_cases h : a.score > c.score
    · have hba : py_best c a = a := if_pos h
      rw [hfold, hba]
      obtain ⟨ihmem, ihmax, ihfind⟩ := ih a
      have har : a.score ≤ (t.foldl py_best a).score := ihmax a (List.mem_cons_self a t)
      have hca : c.score < (t.foldl py_best a).score := lt_of_lt_of_le h har
      refine ⟨List.mem_cons_of_mem c ihmem, ?_, ?_⟩
      · intro x hx
        rcases List.mem_cons.mp hx with rfl | hx'
        · exact le_of_lt hca
        · exact ihmax x hx'
      · rw [List.find?_cons_of_neg]
        · exact ihfind
        · simp only [decide_eq_true_eq, not_le]
          exact hca
    · have hba : py_best c a = c := if_neg h
      rw [hfold, hba]
      obtain ⟨ihmem, ihmax, ihfind⟩ := ih c
      have hac : a.score ≤ c.score := le_of_not_lt h
      have hcr : c.score ≤ (t.foldl py_best c).score := ihmax c (List.mem_cons_self c t)
      refine ⟨?_, ?_, ?_⟩
      · rcases List.mem_cons.mp ihmem with h1 | h1
        · rw [h1]
          exact List.mem_cons_self _ _
        · exact List.mem_cons_of_mem c (List.mem_cons_of_mem a h1)
      · intro x hx
        rcases List.mem_cons.mp hx with rfl | hx'
        · exact hcr
        · rcases List.mem_cons.mp hx' with rfl | hx''
          · exact le_trans hac hcr
          · exact ihmax x (List.mem_cons_of_mem c hx'')
      · by_cases hrc : (t.foldl py_best c).score ≤ c.score
        · have h1 : (c :: t).find?
              (fun x => decide ((t.foldl py_best c).score ≤ x.score)) = some c :=
            List.find?_cons_of_pos _ (by simpa using hrc)
          have h2 : c = t.foldl py_best c := Option.some.inj (h1.symm.trans ihfind)
          exact (List.find?_cons_of_pos _ (by simpa using hrc)).trans (congrArg some h2)
        · have hcrlt : c.score < (t.foldl py_best c).score := lt_of_not_le hrc
          have hpc : ¬ ((fun x => decide ((t.foldl py_best c).score ≤ x.score)) c = true) := by
            simpa using hrc
          have hpa : ¬ ((fun x => decide ((t.foldl py_best c).score ≤ x.score)) a = true) := by
            simp only [decide_eq_true_eq, not_le]
            exact lt_of_le_of_lt hac hcrlt
          have hft : t.find? (fun x => decide ((t.foldl py_best c).score ≤ x.score))
              = some (t.foldl py_best c) := by
            have h3 := ihfind
            rwa [List.find?_cons_of_neg
              (p := fun (x : Candidate) => decide ((t.foldl py_best c).score ≤ x.score)) _ hpc] at h3
          rw [List.find?_cons_of_neg
              (p := fun (x : Candidate) => decide ((t.foldl py_best c).score ≤ x.score)) _ hpc,
            List.find?_cons_of_neg
              (p := fun (x : Candidate) => decide ((t.foldl py_best c).score ≤ x.score)) _ hpa]
          exact hft

theorem py_max_spec (cs : List Candidate) (b : Candidate)
    (h : py_max_by_score cs = some b) :
    b ∈ cs ∧ (∀ x ∈ cs, x.score ≤ b.score) ∧
    cs.find? (fun x => decide (b.score ≤ x.score)) = some b := by
  cases cs with
  | nil => simp [py_max_by_score] at h
  | cons c l =>
    have hb : b = l.foldl py_best c := by
      have := h
      simp only [py_max_by_score, Option.some.injEq] at this
      exact this.symm
    subst hb
    exact py_fold_spec l c

theorem make_candidate_teacher (df : List Lesson) (day subject : String)
    (state : EngineState) (t : String) :
    (make_candidate df day subject state t).teacher = t := rfl

theorem mem_candidates_for (df : List Lesson) (absent : List String)
    (day : String) (allT : List String) (st : EngineState) (per : Nat)
    (subj : String) (c : Candidate)
    (h : c ∈ candidates_for df absent day allT st per subj) :
    c.teacher ∈ allT ∧ c.teacher ∉ absent ∧
    is_free df c.teacher day per = true ∧
    c.teacher ∉ st.busy_substitutes (day, per) ∧
    st.substitute_load (c.teacher, day) < MAX_SUBSTITUTIONS_PER_DAY ∧
    c = make_candidate df day subj st c.teacher := by
  unfold candidates_for at h
  obtain ⟨u, hu, hmc⟩ := List.mem_map.mp h
  rw [List.mem_filter] at hu
  obtain ⟨humem, hufil⟩ := hu
  have ht : c.teacher = u := by
    rw [← hmc]
    exact make_candidate_teacher df day subj st u
  subst ht
  simp only [candidate_filter, Bool.and_eq_true, Bool.not_eq_true',
    decide_eq_true_eq] at hufil
  obtain ⟨⟨⟨habs, hfree⟩, hbusy⟩, hload⟩ := hufil
  refine ⟨humem, ?_, hfree, ?_, hload, hmc.symm⟩
  · simpa using habs
  · simpa using hbusy

theorem step_eq_none (df : List Lesson) (absent : List String) (day : String)
    (allT : List String) (st : EngineState) (plans : List PlanRecord) (slot : Slot)
    (h : candidates_for df absent day allT st slot.period slot.subject = []) :
    step df absent day allT (st, plans) slot = (st, plans ++ [noSubRecord slot day]) := by
  simp only [step]
  rw [h]
  rfl

theorem step_eq_some (df : List Lesson) (absent : List String) (day : String)
    (allT : List String) (st : EngineState) (plans : List PlanRecord) (slot : Slot)
    (best : Candidate)
    (h : py_max_by_score (candidates_for df absent day allT st slot.period slot.subject)
      = some best) :
    step df absent day allT (st, plans) slot =
      (apply_assignment st day slot.period best.teacher,
       plans ++ [successRecord slot day best]) := by
  simp only [step]
  rw [h]

theorem subCount_append (plans : List PlanRecord) (r : PlanRecord) (t : String) :
    subCount (plans ++ [r]) t
      = subCount plans t + (if r.substitute = some t then 1 else 0) := by
  by_cases h : r.substitute = some t
  · simp [subCount, List.filter_append, h]
  · simp [subCount, List.filter_append, h]

theorem subCountAt_append (plans : List PlanRecord) (r : PlanRecord) (per : Nat)
    (t : String) :
    subCountAt (plans ++ [r]) per t
      = subCountAt plans per t
        + (if r.period = per ∧ r.substitute = some t then 1 else 0) := by
  by_cases h1 : r.period = per
  · by_cases h2 : r.substitute = some t
    · simp [subCountAt, List.filter_append, h1, h2]
    · simp [subCountAt, List.filter_append, h1, h2]
  · simp [subCountAt, List.filter_append, h1]

/-- The run invariant tying the mutable `EngineState` to the plan rows emitted
so far: the `(teacher, day)` counter equals the number of rows naming that
substitute, counters never exceed the cap, a teacher is in the
`(day, period)` busy set iff exactly one row names them at that period, and
every row is on the run's day with a substitute who is neither absent nor
teaching at that period. -/
structure EngineInv (df : List Lesson) (absent : List String) (day : String)
    (state : EngineState) (plans : List PlanRecord) : Prop where
  load_eq : ∀ t, state.substitute_load (t, day) = subCount plans t
  load_le : ∀ t d, state.substitute_load (t, d) ≤ MAX_SUBSTITUTIONS_PER_DAY
  busy_eq : ∀ per t, subCountAt plans per t
      = if t ∈ state.busy_substitutes (day, per) then 1 else 0
  rec_ok : ∀ p ∈ plans, p.day = day ∧
      ∀ t, p.substitute = some t → t ∉ absent ∧ is_free df t day p.period = true

theorem inv_init (df : List Lesson) (absent : List String) (day : String) :
    EngineInv df absent day initState [] := by
  refine ⟨fun t => rfl, fun t d => ?_, fun per t => ?_, fun p hp => absurd hp (by simp)⟩
  · simp [initState, MAX_SUBSTITUTIONS_PER_DAY]
  · simp [initState, subCountAt]

theorem step_inv (df : List Lesson) (absent : List String) (day : String)
    (allT : List String) (st : EngineState) (plans : List PlanRecord)
    (slot : Slot) (h : EngineInv df absent day st plans) :
    EngineInv df absent day (step df absent day allT (st, plans) slot).1
        (step df absent day allT (st, plans) slot).2 ∧
    ∃ r, (step df absent day allT (st, plans) slot).2 = plans ++ [r] := by
  cases hm : py_max_by_score
      (candidates_for df absent day allT st slot.period slot.subject) with
  | none =>
    have hc : candidates_for df absent day allT st slot.period slot.subject = [] := by
      cases hc' : candidates_for df absent day allT st slot.period slot.subject with
      | nil => rfl
      | cons c l =>
        rw [hc'] at hm
        simp [py_max_by_score] at hm
    rw [step_eq_none df absent day allT st plans slot hc]
    refine ⟨⟨?_, h.load_le, ?_, ?_⟩, _, rfl⟩
    · intro t
      rw [subCount_append]
      simp [noSubRecord, h.load_eq t]
    · intro per t
      rw [subCountAt_append]
      simp [noSubRecord, h.busy_eq per t]
    · intro p hp
      rcases List.mem_append.mp hp with hp' | hp'
      · exact h.rec_ok p hp'
      · rw [List.mem_singleton] at hp'
        subst hp'
        exact ⟨rfl, fun t hsub => by simp [noSubRecord] at hsub⟩
  | some best =>
    obtain ⟨hbmem, hbmax, hbfind⟩ := py_max_spec _ _ hm
    obtain ⟨hAllT, hnabs, hfree, hnbusy, hload, hmk⟩ :=
      mem_candidates_for df absent day allT st slot.period slot.subject best hbmem
    rw [step_eq_some df absent day allT st plans slot best hm]
    refine ⟨⟨?_, ?_, ?_, ?_⟩, _, rfl⟩
    · intro t
      rw [subCount_append]
      by_cases ht : t = best.teacher
      · subst ht
        have hl : (apply_assignment st day slot.period best.teacher).substitute_load
            (best.teacher, day) = st.substitute_load (best.teacher, day) + 1 := by
          simp [apply_assignment]
        rw [hl, h.load_eq best.teacher]
        simp [successRecord]
      · have hne : (t, day) ≠ (best.teacher, day) := by
          simp [Prod.ext_iff, ht]
        have hl : (apply_assignment st day slot.period best.teacher).substitute_load (t, day)
            = st.substitute_load (t, day) := by
          simp [apply_assignment, hne]
        have hns : ¬ (best.teacher = t) := fun hx => ht hx.symm
        rw [hl, h.load_eq t]
        simp [successRecord, hns]
    · intro t d
      by_cases hp : (t, d) = (best.teacher, day)
      · have hl : (apply_assignment st day slot.period best.teacher).substitute_load (t, d)
            = st.substitute_load (t, d) + 1 := by
          simp [apply_assignment, hp]
        rw [hl]
        have : st.substitute_load (t, d) < MAX_SUBSTITUTIONS_PER_DAY := by
          rw [hp]
          exact hload
        omega
      · have hl : (apply_assignment st day slot.period best.teacher).substitute_load (t, d)
            = st.substitute_load (t, d) := by
          simp [apply_assignment, hp]
        rw [hl]
        exact h.load_le t d
    · intro per t
      rw [subCountAt_append]
      by_cases hper : per = slot.period
      · subst hper
        have hb : (apply_assignment st day slot.period best.teacher).busy_substitutes
            (day, slot.period) = best.teacher :: st.busy_substitutes (day, slot.period) := by
          simp [apply_assignment]
        rw [hb]
        by_cases ht : t = best.teacher
        · subst ht
          have h0 : subCountAt plans slot.period best.teacher = 0 := by
            rw [h.busy_eq slot.period best.teacher, if_neg hnbusy]
          rw [h0, if_pos (List.mem_cons_self _ _)]
          simp [successRecord]
        · have hns : ¬ (best.teacher = t) := fun hx => ht hx.symm
          have hmm : (t ∈ best.teacher :: st.busy_substitutes (day, slot.period))
              ↔ t ∈ st.busy_substitutes (day, slot.period) := by
            simp [List.mem_cons, ht]
          rw [if_congr hmm rfl rfl, ← h.busy_eq slot.period t]
          simp [successRecord, hns]
      · have hdp : (day, per) ≠ (day, slot.period) := by
          simp [Prod.ext_iff, hper]
        have hb : (apply_assignment st day slot.period best.teacher).busy_substitutes (day, per)
            = st.busy_substitutes (day, per) := by
          simp [apply_assignment, hdp]
        have hsp : ¬ ((successRecord slot day best).period = per) := by
          intro hx
          exact hper (by simpa [successRecord] using hx.symm)
        rw [hb, ← h.busy_eq per t]
        simp [hsp]
    · intro p hp
      rcases List.mem_append.mp hp with hp' | hp'
      · exact h.rec_ok p hp'
      · rw [List.mem_singleton] at hp'
        subst hp'
        refine ⟨rfl, fun t hsub => ?_⟩
        have ht : t = best.teacher := by
          simpa [successRecord] using hsub.symm
        subst ht
        exact ⟨hnabs, hfree⟩


theorem foldl_step_inv (df : List Lesson) (absent : List String) (day : String)
    (allT : List String) (slots : List Slot) :
    ∀ (st : EngineState) (plans : List PlanRecord), EngineInv df absent day st plans →
    EngineInv df absent day (slots.foldl (step df absent day allT) (st, plans)).1
        (slots.foldl (step df absent day allT) (st, plans)).2 ∧
    (slots.foldl (step df absent day allT) (st, plans)).2.length
      = plans.length + slots.length := by
  induction slots with
  | nil =>
    intro st plans h
    exact ⟨h, by simp⟩
  | cons s rest ih =>
    intro st plans h
    obtain ⟨h1, r, hr⟩ := step_inv df absent day allT st plans s h
    rw [List.foldl_cons]
    obtain ⟨h2, hlen⟩ :=
      ih (step df absent day allT (st, plans) s).1
        (step df absent day allT (st, plans) s).2 h1
    refine ⟨h2, ?_⟩
    rw [hlen, hr]
    simp
    omega

theorem generate_inv (df : List Lesson) (absent : List String) (day : String)
    (allT : List String) :
    EngineInv df absent day (generate_plan_core df absent day allT).1
        (generate_plan_core df absent day allT).2 ∧
    (generate_plan_core df absent day allT).2.length
      = (required_slots_sorted df absent day).length := by
  have h := foldl_step_inv df absent day allT (required_slots_sorted df absent day)
    initState [] (inv_init df absent day)
  unfold generate_plan_core
  exact ⟨h.1, by simpa using h.2⟩

theorem filter_cons_length {α : Type} (p : α → Bool) (x : α) (xs : List α) :
    (List.filter p (x :: xs)).length
      = (if p x then 1 else 0) + (List.filter p xs).length := by
  rw [List.filter_cons]
  split <;> simp [Nat.add_comm]

theorem absent_filter_split (df : List Lesson) (t : String) (rest : List String)
    (day : String) (ht : t ∉ rest) :
    (df.filter (fun r => decide (r.teacher ∈ t :: rest) && r.day == day)).length
      = (df.filter (fun r => r.teacher == t && r.day == day)).length
        + (df.filter (fun r => decide (r.teacher ∈ rest) && r.day == day)).length := by
  induction df with
  | nil => rfl
  | cons l ls ih =>
    rw [filter_cons_length, filter_cons_length, filter_cons_length, ih]
    have hind : (if (decide (l.teacher ∈ t :: rest) && l.day == day) = true then 1 else 0)
        = (if (l.teacher == t && l.day == day) = true then 1 else 0)
          + (if (decide (l.teacher ∈ rest) && l.day == day) = true then 1 else 0) := by
      by_cases h1 : l.teacher = t
      · by_cases h2 : l.day = day
        · simp [h1, h2, ht]
        · simp [h2]
      · by_cases h2 : l.day = day
        · simp [h1, h2, List.mem_cons]
        · simp [h2]
    omega

theorem get_teacher_schedule_length (df : List Lesson) (t day : String) :
    (get_teacher_schedule df t day).length
      = (df.filter (fun r => r.teacher == t && r.day == day)).length :=
  List.length_insertionSort _ _

theorem required_slots_count (df : List Lesson) (absent : List String)
    (day : String) (h : absent.Nodup) :
    (get_required_slots df absent day).length
      = (df.filter (fun r => decide (r.teacher ∈ absent) && r.day == day)).length := by
  induction absent with
  | nil =>
    simp [get_required_slots]
  | cons t rest ih =>
    obtain ⟨ht, hrest⟩ := List.nodup_cons.mp h
    unfold get_required_slots
    rw [List.flatMap_cons, List.length_append, List.length_map,
      get_teacher_schedule_length]
    unfold get_required_slots at ih
    rw [ih hrest, absent_filter_split df t rest day ht]

theorem length_filter_and_le {α : Type} (a b : α → Bool) (l : List α) :
    (l.filter (fun x => a x && b x)).length ≤ (l.filter b).length := by
  induction l with
  | nil => simp
  | cons x xs ih =>
    rw [filter_cons_length, filter_cons_length]
    by_cases hb : b x = true
    · by_cases ha : a x = true
      · simp [ha, hb]
        omega
      · simp [ha, hb]
        omega
    · simp [hb]
      omega

theorem is_free_iff (df : List Lesson) (t day : String) (per : Nat) :
    is_free df t day per = true ↔
      ∀ r ∈ df, ¬(r.teacher = t ∧ r.day = day ∧ r.period = per) := by
  rw [is_free, List.isEmpty_iff, List.filter_eq_nil_iff]
  constructor
  · intro h r hr hand
    exact h r hr (by simp [hand.1, hand.2.1, hand.2.2])
  · intro h r hr hb
    simp only [Bool.and_eq_true, beq_iff_eq] at hb
    exact h r hr ⟨hb.1.1, hb.1.2, hb.2⟩

theorem teaches_subject_iff (df : List Lesson) (t subj : String) :
    teaches_subject df t subj = true ↔
      ∃ r ∈ df, r.teacher = t ∧ r.subject = subj := by
  rw [teaches_subject, Bool.not_eq_true']
  rw [← Bool.not_eq_true (List.filter _ df).isEmpty]
  rw [List.isEmpty_iff]
  constructor
  · intro h
    rcases List.exists_mem_of_ne_nil _ h with ⟨r, hr⟩
    rw [List.mem_filter] at hr
    obtain ⟨hrdf, hrb⟩ := hr
    simp only [Bool.and_eq_true, beq_iff_eq] at hrb
    exact ⟨r, hrdf, hrb.1, hrb.2⟩
  · intro ⟨r, hrdf, h1, h2⟩ hnil
    have : r ∈ List.filter (fun r => r.teacher == t && r.subject == subj) df := by
      rw [List.mem_filter]
      exact ⟨hrdf, by simp [h1, h2]⟩
    rw [hnil] at this
    exact absurd this (List.not_mem_nil r)

theorem filter_orderedInsert_period (q : Nat) (a : Slot) (l : List Slot) :
    (List.orderedInsert slotPeriodLE a l).filter (fun s => s.period == q)
      = ((a :: l).filter (fun s => s.period == q)) := by
  induction l with
  | nil => rfl
  | cons b t ih =>
    simp only [List.orderedInsert]
    by_cases h : slotPeriodLE a b
    · rw [if_pos h]
    · rw [if_neg h]
      have hba : b.period < a.period := Nat.lt_of_not_le h
      by_cases hb : b.period = q
      · have ha : ¬ (a.period = q) := by omega
        simp [List.filter_cons, hb, ha, ih]
      · simp [List.filter_cons, hb, ih]

theorem filter_insertionSort_period (q : Nat) (l : List Slot) :
    (List.insertionSort slotPeriodLE l).filter (fun s => s.period == q)
      = l.filter (fun s => s.period == q) := by
  induction l with
  | nil => rfl
  | cons a t ih =>
    simp only [List.insertionSort]
    rw [filter_orderedInsert_period]
    simp only [List.filter_cons, ih]

/-!  ## Claims -/

/-- Claim C1, as stated, is false: the engine never rejects a request.  At a
concrete timetable whose only teacher is Alice, requesting the unknown
absent teacher Bob on Monday silently produces an empty plan instead of an
error. -/
theorem C1_counterexample :
    "Bob" ∉ ALL_TEACHERS [⟨"Alice", "Monday", 1, "5A", "Math"⟩] ∧
    generate_multi_replacement_plan [⟨"Alice", "Monday", 1, "5A", "Math"⟩]
      ["Bob"] "Monday" = [] := by
  decide

/-- Claim C1 (amended): the engine performs no validation of the
absent-teacher identifiers or the day label.  An absent teacher with no
timetable row on the requested day (in particular an unknown identifier, or
any identifier under an unknown day label) contributes zero required slots,
and when all absent teachers are such, the engine silently returns the
empty plan rather than rejecting the request. -/
theorem C1_no_validation (df : List Lesson) (absent : List String) (day : String)
    (h : ∀ t ∈ absent, ∀ r ∈ df, ¬(r.teacher = t ∧ r.day = day)) :
    generate_multi_replacement_plan df absent day = [] := by
  have hs : get_required_slots df absent day = [] := by
    unfold get_required_slots
    rw [List.flatMap_eq_nil_iff]
    intro t htmem
    have hfil : df.filter (fun r => r.teacher == t && r.day == day) = [] := by
      rw [List.filter_eq_nil_iff]
      intro r hr hb
      simp only [Bool.and_eq_true, beq_iff_eq] at hb
      exact h t htmem r hr ⟨hb.1, hb.2⟩
    simp [get_teacher_schedule, hfil]
  unfold generate_multi_replacement_plan generate_plan_core required_slots_sorted
  rw [hs]
  rfl

/-- Claim C1 amended witness at a concrete input: Bob has no Monday rows, so
the request is silently answered with the empty plan. -/
theorem C1_no_validation_witness :
    generate_multi_replacement_plan [⟨"Alice", "Monday", 1, "5A", "Math"⟩]
      ["Bob"] "Monday" = [] :=
  C1_no_validation [⟨"Alice", "Monday", 1, "5A", "Math"⟩] ["Bob"] "Monday"
    (by decide)

/-- Claim C2: for every input with a duplicate-free absent set, the plan has
exactly one record per required slot, and the number of required slots
equals the number of timetable rows held by absent teachers on the target
day.  The engine is a total function, so no run raises an error. -/
theorem C2_plan_complete (df : List Lesson) (absent : List String) (day : String)
    (h : absent.Nodup) :
    (generate_multi_replacement_plan df absent day).length
        = (get_required_slots df absent day).length ∧
    (get_required_slots df absent day).length
        = (df.filter (fun r => decide (r.teacher ∈ absent) && r.day == day)).length := by
  refine ⟨?_, required_slots_count df absent day h⟩
  have hg := (generate_inv df absent day (ALL_TEACHERS df)).2
  unfold generate_multi_replacement_plan
  rw [hg]
  unfold required_slots_sorted
  exact List.length_insertionSort _ _

/-- Claim C2 witness at a concrete input: Alice holds two Monday lessons, the
plan has two records. -/
theorem C2_plan_complete_witness :
    (generate_multi_replacement_plan
        [⟨"Alice", "Monday", 1, "5A", "Math"⟩, ⟨"Alice", "Monday", 3, "5A", "Math"⟩,
         ⟨"Bob", "Tuesday", 1, "5A", "Math"⟩] ["Alice"] "Monday").length
      = (get_required_slots
          [⟨"Alice", "Monday", 1, "5A", "Math"⟩, ⟨"Alice", "Monday", 3, "5A", "Math"⟩,
           ⟨"Bob", "Tuesday", 1, "5A", "Math"⟩] ["Alice"] "Monday").length ∧
    (get_required_slots
        [⟨"Alice", "Monday", 1, "5A", "Math"⟩, ⟨"Alice", "Monday", 3, "5A", "Math"⟩,
         ⟨"Bob", "Tuesday", 1, "5A", "Math"⟩] ["Alice"] "Monday").length
      = (List.filter (fun (r : Lesson) => decide (r.teacher ∈ ["Alice"]) && r.day == "Monday")
          [⟨"Alice", "Monday", 1, "5A", "Math"⟩, ⟨"Alice", "Monday", 3, "5A", "Math"⟩,
           ⟨"Bob", "Tuesday", 1, "5A", "Math"⟩]).length :=
  C2_plan_complete
    [⟨"Alice", "Monday", 1, "5A", "Math"⟩, ⟨"Alice", "Monday", 3, "5A", "Math"⟩,
     ⟨"Bob", "Tuesday", 1, "5A", "Math"⟩] ["Alice"] "Monday" (by decide)

/-- Claim C3: in any one plan, at most one record names a given substitute
teacher at a given `(day, period)` pair (the per-period busy set prevents
double-booking a substitute). -/
theorem C3_no_double_booking (df : List Lesson) (absent : List String)
    (day d : String) (per : Nat) (t : String) :
    ((generate_multi_replacement_plan df absent day).filter
        (fun p => p.day == d && (p.period == per && p.substitute == some t))).length
      ≤ 1 := by
  have hb := (generate_inv df absent day (ALL_TEACHERS df)).1.busy_eq per t
  have hle := length_filter_and_le (fun p => p.day == d)
    (fun p => p.period == per && p.substitute == some t)
    (generate_multi_replacement_plan df absent day)
  refine le_trans hle ?_
  have : (List.filter (fun p => p.period == per && p.substitute == some t)
      (generate_multi_replacement_plan df absent day))
        = (List.filter (fun p => p.period == per && p.substitute == some t)
          (generate_plan_core df absent day (ALL_TEACHERS df)).2) := rfl
  rw [this]
  have h2 : subCountAt (generate_plan_core df absent day (ALL_TEACHERS df)).2 per t ≤ 1 := by
    rw [hb]
    split <;> omega
  exact h2

/-- Claim C4: no teacher is chosen as substitute more than
`MAX_SUBSTITUTIONS_PER_DAY` (2) times in one plan. -/
theorem C4_daily_cap (df : List Lesson) (absent : List String) (day t : String) :
    ((generate_multi_replacement_plan df absent day).filter
        (fun p => p.day == day && p.substitute == some t)).length
      ≤ MAX_SUBSTITUTIONS_PER_DAY := by
  have h1 := (generate_inv df absent day (ALL_TEACHERS df)).1.load_eq t
  have h2 := (generate_inv df absent day (ALL_TEACHERS df)).1.load_le t day
  have hle := length_filter_and_le (fun p => p.day == day)
    (fun p => p.substitute == some t)
    (generate_multi_replacement_plan df absent day)
  refine le_trans hle ?_
  have h3 : (List.filter (fun p => p.substitute == some t)
      (generate_multi_replacement_plan df absent day)).length
        = subCount (generate_plan_core df absent day (ALL_TEACHERS df)).2 t := rfl
  rw [h3, ← h1]
  exact h2

/-- Claim C5: a substitute named in any plan record is never an absent
teacher, and the timetable holds no lesson for them at the slot's
`(day, period)`. -/
theorem C5_substitute_valid (df : List Lesson) (absent : List String)
    (day : String) (p : PlanRecord) (t : String)
    (hp : p ∈ generate_multi_replacement_plan df absent day)
    (hs : p.substitute = some t) :
    t ∉ absent ∧ ∀ r ∈ df, ¬(r.teacher = t ∧ r.day = day ∧ r.period = p.period) := by
  have h := (generate_inv df absent day (ALL_TEACHERS df)).1.rec_ok p hp
  obtain ⟨ha, hf⟩ := h.2 t hs
  exact ⟨ha, (is_free_iff df t day p.period).mp hf⟩

/-- Claim C5 witness at a concrete input: Bob substitutes for Alice in Monday
period 1; Bob is not absent and has no own Monday-period-1 lesson. -/
theorem C5_substitute_valid_witness :
    "Bob" ∉ ["Alice"] ∧
    ∀ r ∈ ([⟨"Alice", "Monday", 1, "5A", "Math"⟩,
            ⟨"Bob", "Tuesday", 1, "6B", "Math"⟩] : List Lesson),
      ¬(r.teacher = "Bob" ∧ r.day = "Monday" ∧
        r.period = (⟨"Alice", "Monday", 1, "5A", "Math", some "Bob", true, some 0,
          some 0, some 110, "Same subject, daily load 0"⟩ : PlanRecord).period) :=
  C5_substitute_valid
    [⟨"Alice", "Monday", 1, "5A", "Math"⟩, ⟨"Bob", "Tuesday", 1, "6B", "Math"⟩]
    ["Alice"] "Monday"
    ⟨"Alice", "Monday", 1, "5A", "Math", some "Bob", true, some 0, some 0,
      some 110, "Same subject, daily load 0"⟩
    "Bob" (by decide) (by decide)

theorem make_candidate_fields (df : List Lesson) (day subj : String)
    (st : EngineState) (u : String) :
    (make_candidate df day subj st u).teacher = u ∧
    (make_candidate df day subj st u).is_same_subject = teaches_subject df u subj ∧
    (make_candidate df day subj st u).daily_load = get_teacher_load df u day ∧
    (make_candidate df day subj st u).score
      = (if teaches_subject df u subj then 100 else 0)
        + ((10 : Int) - (get_teacher_load df u day : Int)) :=
  ⟨rfl, rfl, rfl, rfl⟩

/-- Claim C6: each surviving candidate is scored
`(100 if isSameSubject else 0) + (10 − dailyLoad)`, where `isSameSubject`
holds iff the timetable has any row (any day, any period) in which the
candidate teaches the slot's subject, and `dailyLoad` counts the
candidate's own rows on the target day; a different-subject candidate with
load above 10 gets a negative score. -/
theorem C6_score_formula (df : List Lesson) (absent : List String)
    (day : String) (allT : List String) (st : EngineState) (per : Nat)
    (subj : String) (c : Candidate)
    (hc : c ∈ candidates_for df absent day allT st per subj) :
    c.score = (if teaches_subject df c.teacher subj then 100 else 0)
        + ((10 : Int) - (get_teacher_load df c.teacher day : Int)) ∧
    (c.is_same_subject = true ↔ ∃ r ∈ df, r.teacher = c.teacher ∧ r.subject = subj) ∧
    c.daily_load
      = (df.filter (fun r => r.teacher == c.teacher && r.day == day)).length ∧
    (c.is_same_subject = false → 10 < c.daily_load → c.score < 0) := by
  unfold candidates_for at hc
  obtain ⟨u, hu, rfl⟩ := List.mem_map.mp hc
  obtain ⟨ht, hsame, hdl, hsc⟩ := make_candidate_fields df day subj st u
  rw [ht, hsame, hdl, hsc]
  refine ⟨rfl, teaches_subject_iff df u subj, rfl, ?_⟩
  intro h1 h2
  rw [h1]
  simp only [Bool.false_eq_true, if_false]
  omega

/-- Claim C6 witness at a concrete input: Bob teaches Math somewhere, has no
Monday lessons, and is scored 110 for a Monday Math slot. -/
theorem C6_score_formula_witness :
    (110 : Int) = (if teaches_subject [⟨"Bob", "Tuesday", 1, "6B", "Math"⟩] "Bob" "Math"
        then 100 else 0)
      + ((10 : Int)
        - (get_teacher_load [⟨"Bob", "Tuesday", 1, "6B", "Math"⟩] "Bob" "Monday" : Int)) ∧
    (true = true ↔ ∃ r ∈ ([⟨"Bob", "Tuesday", 1, "6B", "Math"⟩] : List Lesson),
      r.teacher = "Bob" ∧ r.subject = "Math") ∧
    (0 : Nat) = (List.filter (fun (r : Lesson) => r.teacher == "Bob" && r.day == "Monday")
      [⟨"Bob", "Tuesday", 1, "6B", "Math"⟩]).length ∧
    (true = false → 10 < (0 : Nat) → (110 : Int) < 0) :=
  C6_score_formula [⟨"Bob", "Tuesday", 1, "6B", "Math"⟩] [] "Monday" ["Bob"]
    initState 1 "Math"
    ⟨"Bob", 110, true, 0, 0, "Same subject, daily load 0"⟩ (by decide)

/-- Claim C7: when the candidate set of a slot is non-empty, the selected
substitute recorded in the plan is a candidate of maximal score, and among
the maximal ones it is the first in the teacher-scan order (the order of
the candidate list, which scans `allTeachers` left to right):
`find?` over the candidates for a score at least the winner's returns the
winner itself.  Selection is a pure function of the inputs, hence
reproducible across runs. -/
theorem C7_first_max_selected (df : List Lesson) (absent : List String)
    (day : String) (allT : List String) (st : EngineState)
    (plans : List PlanRecord) (slot : Slot) (best : Candidate)
    (h : py_max_by_score
      (candidates_for df absent day allT st slot.period slot.subject) = some best) :
    (step df absent day allT (st, plans) slot).2
        = plans ++ [successRecord slot day best] ∧
    best ∈ candidates_for df absent day allT st slot.period slot.subject ∧
    (∀ x ∈ candidates_for df absent day allT st slot.period slot.subject,
      x.score ≤ best.score) ∧
    (candidates_for df absent day allT st slot.period slot.subject).find?
        (fun x => decide (best.score ≤ x.score)) = some best := by
  obtain ⟨h1, h2, h3⟩ := py_max_spec _ _ h
  refine ⟨?_, h1, h2, h3⟩
  rw [step_eq_some df absent day allT st plans slot best h]

/-- Claim C7 witness at a concrete input: Bob and Carl tie at score 10 for
Alice's Monday Math slot; Bob, first in scan order, is selected. -/
theorem C7_first_max_selected_witness :
    (step [⟨"Alice", "Monday", 1, "5A", "Math"⟩, ⟨"Bob", "Tuesday", 1, "6B", "Art"⟩,
        ⟨"Carl", "Tuesday", 2, "6B", "Art"⟩] ["Alice"] "Monday" ["Bob", "Carl"]
        (initState, []) ⟨"Alice", 1, "5A", "Math"⟩).2
      = [] ++ [successRecord ⟨"Alice", 1, "5A", "Math"⟩ "Monday"
          ⟨"Bob", 10, false, 0, 0, "Different subject, daily load 0"⟩] ∧
    (⟨"Bob", 10, false, 0, 0, "Different subject, daily load 0"⟩ : Candidate)
      ∈ candidates_for [⟨"Alice", "Monday", 1, "5A", "Math"⟩,
          ⟨"Bob", "Tuesday", 1, "6B", "Art"⟩, ⟨"Carl", "Tuesday", 2, "6B", "Art"⟩]
          ["Alice"] "Monday" ["Bob", "Carl"] initState
          (⟨"Alice", 1, "5A", "Math"⟩ : Slot).period
          (⟨"Alice", 1, "5A", "Math"⟩ : Slot).subject ∧
    (∀ x ∈ candidates_for [⟨"Alice", "Monday", 1, "5A", "Math"⟩,
        ⟨"Bob", "Tuesday", 1, "6B", "Art"⟩, ⟨"Carl", "Tuesday", 2, "6B", "Art"⟩]
        ["Alice"] "Monday" ["Bob", "Carl"] initState
        (⟨"Alice", 1, "5A", "Math"⟩ : Slot).period
        (⟨"Alice", 1, "5A", "Math"⟩ : Slot).subject,
      x.score ≤ (⟨"Bob", 10, false, 0, 0, "Different subject, daily load 0"⟩
        : Candidate).score) ∧
    (candidates_for [⟨"Alice", "Monday", 1, "5A", "Math"⟩,
        ⟨"Bob", "Tuesday", 1, "6B", "Art"⟩, ⟨"Carl", "Tuesday", 2, "6B", "Art"⟩]
        ["Alice"] "Monday" ["Bob", "Carl"] initState
        (⟨"Alice", 1, "5A", "Math"⟩ : Slot).period
        (⟨"Alice", 1, "5A", "Math"⟩ : Slot).subject).find?
        (fun x => decide ((⟨"Bob", 10, false, 0, 0,
          "Different subject, daily load 0"⟩ : Candidate).score ≤ x.score))
      = some ⟨"Bob", 10, false, 0, 0, "Different subject, daily load 0"⟩ :=
  C7_first_max_selected
    [⟨"Alice", "Monday", 1, "5A", "Math"⟩, ⟨"Bob", "Tuesday", 1, "6B", "Art"⟩,
     ⟨"Carl", "Tuesday", 2, "6B", "Art"⟩] ["Alice"] "Monday" ["Bob", "Carl"]
    initState [] ⟨"Alice", 1, "5A", "Math"⟩
    ⟨"Bob", 10, false, 0, 0, "Different subject, daily load 0"⟩ (by decide)

/-- Claim C8: the required-slot sequence handed to greedy assignment is
sorted by period ascending, and within each period the slots appear
grouped by absent teacher in the supplied order, each teacher's own slots
in schedule order (the stable sort keeps the concatenation order on
ties). -/
theorem C8_slot_ordering (df : List Lesson) (absent : List String) (day : String) :
    List.Sorted slotPeriodLE (required_slots_sorted df absent day) ∧
    ∀ q : Nat, (required_slots_sorted df absent day).filter (fun s => s.period == q)
      = absent.flatMap (fun teacher =>
          ((get_teacher_schedule df teacher day).map (fun row =>
            ({ absent_teacher := teacher, period := row.period,
               className := row.className, subject := row.subject } : Slot))).filter
            (fun s => s.period == q)) := by
  constructor
  · exact List.sorted_insertionSort slotPeriodLE _
  · intro q
    unfold required_slots_sorted
    rw [filter_insertionSort_period]
    unfold get_required_slots
    rw [List.filter_flatMap]

/-- Claim C9: the engine is deterministic — two runs on equal timetables,
equal absent sets and equal days (the teacher universe being derived from
the timetable, its ordering is equal too) produce equal plans, record for
record. -/
theorem C9_deterministic (df1 df2 : List Lesson) (a1 a2 : List String)
    (d1 d2 : String) (h1 : df1 = df2) (h2 : a1 = a2) (h3 : d1 = d2) :
    generate_multi_replacement_plan df1 a1 d1
      = generate_multi_replacement_plan df2 a2 d2 := by
  rw [h1, h2, h3]

/-- Claim C9 witness at a concrete input: two identical runs give the same
plan. -/
theorem C9_deterministic_witness :
    generate_multi_replacement_plan [⟨"Alice", "Monday", 1, "5A", "Math"⟩]
      ["Alice"] "Monday"
    = generate_multi_replacement_plan [⟨"Alice", "Monday", 1, "5A", "Math"⟩]
      ["Alice"] "Monday" :=
  C9_deterministic [⟨"Alice", "Monday", 1, "5A", "Math"⟩]
    [⟨"Alice", "Monday", 1, "5A", "Math"⟩] ["Alice"] ["Alice"]
    "Monday" "Monday" rfl rfl rfl

/-- Claim C10: when a slot has no candidates, the engine emits the
no-substitute record and leaves the assignment state untouched — both the
per-`(teacher, day)` substitution counters and the per-`(day, period)`
busy sets are exactly those before the slot, so later slots are filtered
and scored as if the failed slot had not existed. -/
theorem C10_failed_slot_frame (df : List Lesson) (absent : List String)
    (day : String) (allT : List String) (st : EngineState)
    (plans : List PlanRecord) (slot : Slot)
    (h : candidates_for df absent day allT st slot.period slot.subject = []) :
    (step df absent day allT (st, plans) slot).1.substitute_load
        = st.substitute_load ∧
    (step df absent day allT (st, plans) slot).1.busy_substitutes
        = st.busy_substitutes ∧
    (step df absent day allT (st, plans) slot).2
        = plans ++ [noSubRecord slot day] := by
  rw [step_eq_none df absent day allT st plans slot h]
  exact ⟨rfl, rfl, rfl⟩

/-- Claim C10 witness at a concrete input: an empty timetable offers no
candidates; the state is returned unchanged and the no-substitute record
is appended. -/
theorem C10_failed_slot_frame_witness :
    (step [] [] "Monday" [] (initState, []) ⟨"X", 1, "5A", "Math"⟩).1.substitute_load
        = initState.substitute_load ∧
    (step [] [] "Monday" [] (initState, []) ⟨"X", 1, "5A", "Math"⟩).1.busy_substitutes
        = initState.busy_substitutes ∧
    (step [] [] "Monday" [] (initState, []) ⟨"X", 1, "5A", "Math"⟩).2
        = [] ++ [noSubRecord ⟨"X", 1, "5A", "Math"⟩ "Monday"] :=
  C10_failed_slot_frame [] [] "Monday" [] initState [] ⟨"X", 1, "5A", "Math"⟩ rfl
